import Mathlib

/-!
Verification of the memvra retrieval and context-assembly engine.

The development shallowly embeds the program's data model and operations.
Pure functions whose Go source is available (the export filename mapping in
internal/export, the MCP config install in internal/mcp/install.go) are
translated directly.  The vector store, orchestrator and context builder
implementations are exercised only through their tests in the available
tree, so those operations are modelled from the specification, as recorded
in each doc comment.

An IEEE-754 binary32 value is represented by its 32-bit pattern, a natural
number below 2^32: the codec under verification never interprets the value,
it only moves the four bytes of each component, and Go's
math.Float32frombits / Float32bits are mutually inverse bijections between
bit patterns and float32 values.
-/

namespace Memvra

/-! ## Vector codec (spec 4.1, encoding contract) -/

/-- Little-endian byte decomposition of one 32-bit word, as written by
binary.LittleEndian.PutUint32: lowest byte first. -/
def word32ToBytesLE (w : Nat) : List Nat :=
  [w % 256, w / 256 % 256, w / 65536 % 256, w / 16777216 % 256]

/-- Reassemble one 32-bit word from four little-endian bytes, as read by
binary.LittleEndian.Uint32. -/
def bytesLEToWord32 (b0 b1 b2 b3 : Nat) : Nat :=
  b0 + 256 * b1 + 65536 * b2 + 16777216 * b3

/-- Modelled from the spec: the missing memory.float32SliceToBlob.  "a
vector of N 32-bit floats encodes to exactly 4·N bytes, little-endian
component order".  Each component is its 32-bit pattern. -/
def float32SliceToBlob : List Nat → List Nat
  | [] => []
  | v :: rest => word32ToBytesLE (v % 4294967296) ++ float32SliceToBlob rest

/-- Modelled from the spec: the missing memory.BlobToFloat32Slice,
"decoding is the exact inverse": consume the blob four bytes at a time,
little-endian, one component per group. -/
def blobToFloat32Slice : List Nat → List Nat
  | b0 :: b1 :: b2 :: b3 :: rest => bytesLEToWord32 b0 b1 b2 b3 :: blobToFloat32Slice rest
  | _ => []

/-! ## Export filename mapping (internal/export, internal/cli/autoexport.go) -/

/-- Direct translation of export.FormatToFilename. -/
def FormatToFilename (format : String) : String :=
  if format = "claude" then "CLAUDE.md"
  else if format = "cursor" then ".cursorrules"
  else if format = "markdown" then "PROJECT_CONTEXT.md"
  else if format = "json" then "memvra-context.json"
  else ""

/-- The auto-export configuration, translation of config.AutoExportConfig
as used by internal/cli/autoexport.go. -/
structure AutoExportConfig where
  enabled : Bool
  formats : List String
deriving Repr, DecidableEq

/-- Direct translation of cli.autoExportFilenames: for each configured
format keep FormatToFilename's answer when it is non-empty, preserving
order. -/
def autoExportFilenames (cfg : AutoExportConfig) : List String :=
  (cfg.formats.map FormatToFilename).filter (fun n => n ≠ "")

/-! ## MCP config install (internal/mcp/install.go) -/

/-- Translation of mcpServerEntry. -/
structure McpServerEntry where
  command : String
  args : List String
deriving Repr, DecidableEq

/-- An MCP configuration's server table, the mcpServers JSON object
modelled as a partial map from server name to entry. -/
def McpServers : Type := String → Option McpServerEntry

/-- Direct translation of installMCPConfig.  The input is the parse of the
prior file: none models a missing or unparsable file, which the source
treats as an empty server table (read errors are skipped, unmarshal errors
ignored and a nil map replaced by an empty one).  The memvra entry is then
added or updated, every other entry kept. -/
def installMCPConfig (prior : Option McpServers) : McpServers :=
  fun name =>
    if name = "memvra" then some { command := "memvra", args := ["mcp"] }
    else
      match prior with
      | some servers => servers name
      | none => none

/-! ## Vector store search (spec 4.1) -/

/-- Translation of VectorMatch: an entity id with its distance to the
query, distance = 1 - similarity. -/
structure VectorMatch where
  id : String
  distance : ℚ
deriving Repr, DecidableEq

/-- Ascending-distance comparison used to order search results. -/
def matchLE (a b : VectorMatch) : Prop := a.distance ≤ b.distance

instance : DecidableRel matchLE :=
  fun a b => inferInstanceAs (Decidable (a.distance ≤ b.distance))

instance : IsTotal VectorMatch matchLE := ⟨fun a b => le_total a.distance b.distance⟩

instance : IsTrans VectorMatch matchLE := ⟨fun _ _ _ h h2 => le_trans h h2⟩

/-- Modelled from the spec: the candidate pass of the missing
VectorStore.Search.  For every stored vector of matching dimension, in
insertion order, compute the similarity to the query, keep the entry when
similarity ≥ threshold, and record distance = 1 - similarity.  The numeric
similarity function (cosine similarity over IEEE-754 floats in the
program) is abstracted as the parameter sim over exact rationals; every
statement proved below holds for an arbitrary sim. -/
def searchCandidates (sim : List ℚ → List ℚ → ℚ) (stored : List (String × List ℚ))
    (query : List ℚ) (threshold : ℚ) : List VectorMatch :=
  (stored.filter (fun p => p.2.length == query.length)).filterMap (fun p =>
    if threshold ≤ sim query p.2 then some ⟨p.1, 1 - sim query p.2⟩ else none)

/-- Modelled from the spec: the missing VectorStore.Search.  A nil/empty
query returns an empty result; otherwise the surviving candidates are
sorted by ascending distance with a stable sort (ties keep insertion
order) and truncated to topK. -/
def search (sim : List ℚ → List ℚ → ℚ) (stored : List (String × List ℚ))
    (query : List ℚ) (topK : Nat) (threshold : ℚ) : List VectorMatch :=
  if query = [] then []
  else ((searchCandidates sim stored query threshold).insertionSort matchLE).take topK

/-- Modelled from the spec: the missing UpsertEmbedding.  A nil/empty
vector is a no-op; otherwise the vector for id is replaced in place when
present and appended otherwise. -/
def upsertVec (idx : List (String × List ℚ)) (id : String) (v : List ℚ) :
    List (String × List ℚ) :=
  if v = [] then idx
  else if idx.any (fun p => p.1 == id) then
    idx.map (fun p => if p.1 == id then (id, v) else p)
  else idx ++ [(id, v)]

/-- Modelled from the spec: the missing DeleteEmbedding, idempotent
removal of the vector for id. -/
def deleteVec (idx : List (String × List ℚ)) (id : String) : List (String × List ℚ) :=
  idx.filter (fun p => p.1 ≠ id)

/-- The vector currently stored for id, if any. -/
def lookupVec (idx : List (String × List ℚ)) (id : String) : Option (List ℚ) :=
  (idx.find? (fun p => p.1 == id)).map Prod.snd

/-! ## Data model (spec 3) -/

/-- Translation of memory.Memory as the claims use it.  The memory type is
a string, as in the source (MemoryType is a string type); importance is an
exact rational. -/
structure Memory where
  id : String
  content : String
  memoryType : String
  importance : ℚ
  source : String
deriving Repr, DecidableEq

/-- Translation of memory.Chunk as the claims use it. -/
structure Chunk where
  id : String
  fileId : String
  content : String
  startLine : Nat
  endLine : Nat
  chunkType : String
deriving Repr, DecidableEq

/-- Translation of memory.Session as the claims use it. -/
structure Session where
  id : String
  question : String
  responseSummary : String
  modelUsed : String
  tokensUsed : Nat
deriving Repr, DecidableEq

/-- The five enumerated memory kinds (spec 3). -/
def validMemoryTypes : List String :=
  ["decision", "convention", "constraint", "note", "todo"]

/-- The fixed type → importance table (spec 3): decision=0.8,
constraint=0.8, convention=0.7, todo=0.6, note=0.5. -/
def importanceForType (t : String) : ℚ :=
  if t = "decision" then 4/5
  else if t = "constraint" then 4/5
  else if t = "convention" then 7/10
  else if t = "todo" then 3/5
  else 1/2

/-- Modelled from the spec: the missing content auto-classification, "a
TODO-style marker ⇒ todo", best effort, defaulting to note. -/
def classifyContent (content : String) : String :=
  if (content.splitOn "TODO").length ≥ 2 then "todo" else "note"

/-- Error conditions of the orchestrator (spec 7). -/
inductive MemErr where
  | invalidType (t : String)
  | notFound (id : String)
deriving Repr, DecidableEq

/-! ## Orchestrator (spec 4.3) -/

/-- The stores the orchestrator coordinates: the metadata store's memory
and chunk tables in insertion order, and the two vector index spaces. -/
structure OrchState where
  memories : List Memory
  chunks : List Chunk
  memoryVectors : List (String × List ℚ)
  chunkVectors : List (String × List ℚ)
deriving Repr, DecidableEq

/-- The state of an orchestrator over empty stores, used to evaluate the
operations on concrete inputs. -/
def emptyOrchState : OrchState :=
  { memories := [], chunks := [], memoryVectors := [], chunkVectors := [] }

/-- A concrete note memory used to evaluate the lifecycle operations. -/
def wmNote1 : Memory :=
  { id := "m1", content := "note 1", memoryType := "note", importance := 1/2,
    source := "user" }

/-- A second concrete note memory. -/
def wmNote2 : Memory :=
  { id := "m2", content := "note 2", memoryType := "note", importance := 1/2,
    source := "user" }

/-- A concrete decision memory. -/
def wmDec : Memory :=
  { id := "m3", content := "keep this decision", memoryType := "decision",
    importance := 4/5, source := "user" }

/-- A concrete three-memory orchestrator state with one vector per
memory, used to evaluate ForgetByType. -/
def forgetW : OrchState :=
  { memories := [wmNote1, wmNote2, wmDec], chunks := [],
    memoryVectors := [("m1", [1]), ("m2", [2]), ("m3", [3])], chunkVectors := [] }

/-- Translation of memory.RetrieveOptions. -/
structure RetrieveOptions where
  topKChunks : Nat
  topKMemories : Nat
  similarityThreshold : ℚ
deriving Repr, DecidableEq

/-- Translation of memory.RetrievalResult. -/
structure RetrievalResult where
  chunks : List Chunk
  memories : List Memory
deriving Repr, DecidableEq

/-- Modelled from the spec: the missing Orchestrator.Retrieve.  With no
embedding capability, or a failing embedding call for the query (the
embedder returning none), degrade gracefully: all persisted memories,
zero chunks, no error.  Otherwise search both index spaces, resolve ids
through the metadata store, and let the ranker (abstracted as the
rankChunks/rankMemories parameters) finalize the order per category. -/
def retrieve (sim : List ℚ → List ℚ → ℚ) (rankChunks : List Chunk → List Chunk)
    (rankMemories : List Memory → List Memory)
    (embedder : Option (String → Option (List ℚ))) (st : OrchState)
    (query : String) (opts : RetrieveOptions) : Except MemErr RetrievalResult :=
  match embedder with
  | none => .ok { chunks := [], memories := st.memories }
  | some embed =>
    match embed query with
    | none => .ok { chunks := [], memories := st.memories }
    | some qv =>
      let chunkMatches := search sim st.chunkVectors qv opts.topKChunks opts.similarityThreshold
      let memMatches := search sim st.memoryVectors qv opts.topKMemories opts.similarityThreshold
      .ok {
        chunks := rankChunks (chunkMatches.filterMap (fun m =>
          st.chunks.find? (fun c => c.id == m.id)))
        memories := rankMemories (memMatches.filterMap (fun m =>
          st.memories.find? (fun c => c.id == m.id))) }

/-- Modelled from the spec: the memory a valid Remember call constructs.
An empty type is auto-classified from the content; importance comes from
the fixed type table. -/
def rememberedMemory (st : OrchState) (content ty src : String) : Memory :=
  let finalType := if ty = "" then classifyContent content else ty
  { id := "mem-" ++ toString st.memories.length
    content := content
    memoryType := finalType
    importance := importanceForType finalType
    source := src }

/-- Modelled from the spec: the missing Orchestrator.Remember, validation
and persistence.  An invalid non-empty type fails with InvalidType before
anything persists; otherwise the memory of rememberedMemory persists
first, then (embedder present and succeeding) its embedding is upserted
into the memory index, an embedding failure being tolerated. -/
def remember (embedder : Option (String → Option (List ℚ))) (st : OrchState)
    (content ty src : String) : Except MemErr Memory × OrchState :=
  if ty ≠ "" ∧ ty ∉ validMemoryTypes then (.error (.invalidType ty), st)
  else
    let mem := rememberedMemory st content ty src
    let st1 := { st with memories := st.memories ++ [mem] }
    match embedder with
    | none => (.ok mem, st1)
    | some embed =>
      match embed content with
      | none => (.ok mem, st1)
      | some v => (.ok mem, { st1 with memoryVectors := upsertVec st1.memoryVectors mem.id v })

/-- Modelled from the spec: the missing Orchestrator.Forget.  NotFound
when the id has no memory; the vector deletion is attempted regardless. -/
def forget (st : OrchState) (id : String) : Except MemErr Unit × OrchState :=
  let st1 := { st with memoryVectors := deleteVec st.memoryVectors id }
  if st.memories.any (fun m => m.id == id) then
    (.ok (), { st1 with memories := st.memories.filter (fun m => m.id ≠ id) })
  else (.error (.notFound id), st1)

/-- Modelled from the spec: the missing Orchestrator.ForgetByType.
InvalidType for an unrecognized type; otherwise every memory of that
exact type is deleted together with its vector, all else untouched. -/
def forgetByType (st : OrchState) (ty : String) : Except MemErr Unit × OrchState :=
  if ty ∉ validMemoryTypes then (.error (.invalidType ty), st)
  else
    (.ok (), { st with
      memories := st.memories.filter (fun m => m.memoryType ≠ ty)
      memoryVectors := st.memoryVectors.filter (fun p =>
        (st.memories.filter (fun m => m.memoryType == ty)).all (fun m => m.id ≠ p.1)) })

/-! ## Context builder (spec 4.4) -/

/-- Translation of memory.Project as the builder uses it. -/
structure Project where
  name : String
  rootPath : String
  techStack : String
deriving Repr, DecidableEq

/-- The metadata-store state the builder reads: optional project record,
memories, and the session log oldest first. -/
structure MetaStore where
  project : Option Project
  memories : List Memory
  sessions : List Session
deriving Repr, DecidableEq

/-- Translation of context.BuildOptions. -/
structure BuildOptions where
  question : String
  maxTokens : Int
  topKSessions : Nat
  extraFiles : List String
deriving Repr, DecidableEq

/-- The builder's output.  Text is modelled as the list of rendered
fragments concatenated in order; the Included lists make the budgeted
selections of spec step 2b-2c explicit, with the Used counters their
lengths, matching the counters the program reports. -/
structure BuildResult where
  systemPromptParts : List String
  contextParts : List String
  sessionsIncluded : List Session
  chunksIncluded : List Chunk
  memoriesIncluded : List Memory
  tokensUsed : Nat
  chunksUsed : Nat
  memoriesUsed : Nat
  sessionsUsed : Nat
  sources : List String
deriving Repr, DecidableEq

/-- Budget check of spec step 3: with maxTokens ≤ 0 everything fits;
otherwise an item fits only if adding its cost keeps the running total
within maxTokens. -/
def fitsBudget (maxTokens : Int) (total cost : Nat) : Bool :=
  decide (maxTokens ≤ 0 ∨ ((total : Int) + cost ≤ maxTokens))

/-- Budgeted category pass of spec steps 2b-2c: append candidates in
order, each only if it fits; at the first candidate that would overflow,
drop the rest of the category.  Returns the appended items and the new
running total. -/
def addBudgeted (maxTokens : Int) (cost : α → Nat) : List α → Nat → List α × Nat
  | [], total => ([], total)
  | x :: rest, total =>
    if fitsBudget maxTokens total (cost x) then
      let r := addBudgeted maxTokens cost rest (total + cost x)
      (x :: r.1, r.2)
    else ([], total)

/-- A retrieved memory whose type is already surfaced by the system
prompt (convention, constraint) or by step 2a (decision), and is
therefore skipped in step 2c. -/
def alreadySurfaced (m : Memory) : Bool :=
  m.memoryType == "convention" || m.memoryType == "constraint" || m.memoryType == "decision"

/-- Modelled from the spec: the system prompt of the missing
Builder.Build, step 1 — project name (falling back to "unknown"), tech
stack, then the full unfiltered convention and constraint lists rendered
by the formatter fm. -/
def systemPromptOf (fm : Memory → String) (store : MetaStore) : List String :=
  let name := match store.project with | some p => p.name | none => "unknown"
  let stack := match store.project with | some p => p.techStack | none => ""
  [name, stack]
    ++ (store.memories.filter (fun m => m.memoryType == "convention")).map fm
    ++ (store.memories.filter (fun m => m.memoryType == "constraint")).map fm

/-- Modelled from the spec: the missing Builder.Build.  Capabilities are
parameters: fm/fs/fc render a memory/session/chunk, tok counts tokens,
readFile reads an extra file from disk (none = unreadable, silently
skipped).  Step 2a adds all decisions unconditionally, accumulating their
cost; steps 2b-2c run one budgeted category pass each for sessions
(newest first, omitted when topKSessions = 0), retrieved chunks, and
retrieved memories not already surfaced; step 2d appends readable extra
files. -/
def build (fm : Memory → String) (fs : Session → String) (fc : Chunk → String)
    (tok : String → Nat) (readFile : String → Option String)
    (store : MetaStore) (retrieved : RetrievalResult) (opts : BuildOptions) : BuildResult :=
  let decisions := store.memories.filter (fun m => m.memoryType == "decision")
  let decParts := decisions.map fm
  let t1 := (decParts.map tok).sum
  let sessCand :=
    if opts.topKSessions = 0 then [] else store.sessions.reverse.take opts.topKSessions
  let sessStep := addBudgeted opts.maxTokens (fun s => tok (fs s)) sessCand t1
  let chunkStep := addBudgeted opts.maxTokens (fun c => tok (fc c)) retrieved.chunks sessStep.2
  let memCand := retrieved.memories.filter (fun m => !alreadySurfaced m)
  let memStep := addBudgeted opts.maxTokens (fun m => tok (fm m)) memCand chunkStep.2
  let fileParts := opts.extraFiles.filterMap readFile
  { systemPromptParts := systemPromptOf fm store
    contextParts :=
      decParts ++ sessStep.1.map fs ++ chunkStep.1.map fc ++ memStep.1.map fm ++ fileParts
    sessionsIncluded := sessStep.1
    chunksIncluded := chunkStep.1
    memoriesIncluded := memStep.1
    tokensUsed := memStep.2 + (fileParts.map tok).sum
    chunksUsed := chunkStep.1.length
    memoriesUsed := memStep.1.length
    sessionsUsed := sessStep.1.length
    sources :=
      decisions.map (fun m => "decision:" ++ m.id)
        ++ sessStep.1.map (fun s => "session:" ++ s.id)
        ++ chunkStep.1.map (fun c => "chunk:" ++ c.id)
        ++ memStep.1.map (fun m => "memory:" ++ m.id)
        ++ (opts.extraFiles.filter (fun p => (readFile p).isSome)).map
            (fun p => "file (explicit):" ++ p) }

/-- A concrete convention memory used to evaluate Build. -/
def cconvW : Memory :=
  { id := "c1", content := "use camelCase", memoryType := "convention",
    importance := 7/10, source := "user" }

/-- A concrete constraint memory used to evaluate Build. -/
def cconstrW : Memory :=
  { id := "c2", content := "never expose API keys", memoryType := "constraint",
    importance := 4/5, source := "user" }

/-- A concrete decision memory used to evaluate Build. -/
def cdecW : Memory :=
  { id := "c3", content := "decided to use PostgreSQL", memoryType := "decision",
    importance := 4/5, source := "user" }

/-- The concrete project record used to evaluate Build. -/
def buildProjectW : Project :=
  { name := "testproject", rootPath := "/tmp/testproject", techStack := "Go" }

/-- A concrete metadata-store state for evaluating Build. -/
def buildStoreW : MetaStore :=
  { project := some buildProjectW, memories := [cconvW, cconstrW, cdecW], sessions := [] }

/-- An empty retrieval result for evaluating Build. -/
def emptyRetrievalW : RetrievalResult := { chunks := [], memories := [] }

/-- Concrete default build options for evaluating Build. -/
def buildOptsW : BuildOptions :=
  { question := "what database do we use?", maxTokens := 0, topKSessions := 0,
    extraFiles := [] }

/-- Every prefix of the picked items keeps the running token total within
the budget, starting from the given total: the formal shape of "appended
only if appending it would not push the running total past maxTokens". -/
def withinBudget (maxT : Int) (cost : α → Nat) (picked : List α) (total : Nat) : Prop :=
  ∀ i < picked.length, (total : Int) + (((picked.take (i + 1)).map cost).sum : Nat) ≤ maxT

/-- The decision memory of the budget evaluation, token cost 2. -/
def budgetDecW : Memory :=
  { id := "d1", content := "dd", memoryType := "decision", importance := 4/5,
    source := "user" }

/-- A concrete store for evaluating the token budget: one decision of
token cost 2 and nothing else. -/
def budgetStoreW : MetaStore :=
  { project := none, memories := [budgetDecW], sessions := [] }

/-- A chunk of token cost 3 for the budget evaluation. -/
def budgetChunkW (id content : String) (startLine : Nat) : Chunk :=
  { id := id, fileId := "f", content := content, startLine := startLine,
    endLine := startLine + 1, chunkType := "code" }

/-- The note memory of the budget evaluation, token cost 1. -/
def budgetNoteW : Memory :=
  { id := "n1", content := "n", memoryType := "note", importance := 1/2,
    source := "user" }

/-- A concrete retrieval result for evaluating the token budget: three
chunks of cost 3 and one note memory of cost 1. -/
def budgetRetrievedW : RetrievalResult :=
  { chunks := [budgetChunkW "k1" "aaa" 1, budgetChunkW "k2" "bbb" 3,
      budgetChunkW "k3" "ccc" 5],
    memories := [budgetNoteW] }

/-- Build options with a budget of 9 tokens for the evaluation. -/
def budgetOptsW : BuildOptions :=
  { question := "explain", maxTokens := 9, topKSessions := 0, extraFiles := [] }

/-- The evaluated budget-limited build: fragments render to the entity's
text, token cost is string length, no disk. -/
def budgetBuildW : BuildResult :=
  build (fun m => m.content) (fun s => s.question) (fun c => c.content)
    String.length (fun _ => none) budgetStoreW budgetRetrievedW budgetOptsW

/-! ## Theorems -/

/-- C3: for every finite sequence of N 32-bit floats (as 32-bit
patterns), including the empty one, encoding yields exactly 4·N bytes in
little-endian component order and decoding the encoding returns the
original sequence. -/
theorem float32_codec_roundtrip (vs : List Nat) (h : ∀ v ∈ vs, v < 4294967296) :
    (float32SliceToBlob vs).length = 4 * vs.length ∧
    blobToFloat32Slice (float32SliceToBlob vs) = vs := by
  induction vs with
  | nil => exact ⟨rfl, rfl⟩
  | cons v rest ih =>
    have hv : v < 4294967296 := h v (List.mem_cons_self v rest)
    have hmod : v % 4294967296 = v := Nat.mod_eq_of_lt hv
    have hrest := ih (fun x hx => h x (List.mem_cons_of_mem v hx))
    constructor
    · simp only [float32SliceToBlob, word32ToBytesLE, List.length_append,
        List.length_cons, List.length_nil, hrest.1]
      ring
    · simp only [float32SliceToBlob, word32ToBytesLE, List.cons_append,
        List.nil_append, blobToFloat32Slice, bytesLEToWord32, hmod, List.cons.injEq]
      exact ⟨by omega, by simpa using hrest.2⟩

/-- Evaluation of the C3 round trip on a concrete vector: zero, the
pattern of 1.0f, and the all-ones pattern. -/
theorem float32_codec_roundtrip_witness :
    (∀ v ∈ [0, 1065353216, 4294967295], v < 4294967296) ∧
    (float32SliceToBlob [0, 1065353216, 4294967295]).length = 4 * 3 ∧
    blobToFloat32Slice (float32SliceToBlob [0, 1065353216, 4294967295]) =
      [0, 1065353216, 4294967295] :=
  ⟨by decide,
   (float32_codec_roundtrip [0, 1065353216, 4294967295] (by decide)).1,
   (float32_codec_roundtrip [0, 1065353216, 4294967295] (by decide)).2⟩

/-- The loop of cli.autoExportFilenames agrees with a filterMap over the
configured formats. -/
theorem filter_map_formats_eq_filterMap (formats : List String) :
    (formats.map FormatToFilename).filter (fun n => n ≠ "") =
      formats.filterMap (fun f =>
        if FormatToFilename f = "" then none else some (FormatToFilename f)) := by
  induction formats with
  | nil => rfl
  | cons f rest ih =>
    simp only [List.map_cons, List.filter_cons, List.filterMap_cons]
    by_cases hf : FormatToFilename f = "" <;> simp only [hf, ite_true, ite_false] <;>
      simp only [ne_eq, decide_not] at ih ⊢ <;> simp [hf, ih]

/-- C9: FormatToFilename maps the four known format names to their files
and everything else to the empty string, and autoExportFilenames keeps
exactly the non-empty translations of the configured formats in order, so
it returns only the four known filenames. -/
theorem formatToFilename_spec :
    FormatToFilename "claude" = "CLAUDE.md" ∧
    FormatToFilename "cursor" = ".cursorrules" ∧
    FormatToFilename "markdown" = "PROJECT_CONTEXT.md" ∧
    FormatToFilename "json" = "memvra-context.json" ∧
    (∀ s : String, s ≠ "claude" → s ≠ "cursor" → s ≠ "markdown" → s ≠ "json" →
      FormatToFilename s = "") ∧
    (∀ cfg : AutoExportConfig,
      autoExportFilenames cfg =
        cfg.formats.filterMap (fun f =>
          if FormatToFilename f = "" then none else some (FormatToFilename f)) ∧
      ∀ n ∈ autoExportFilenames cfg,
        n ∈ ["CLAUDE.md", ".cursorrules", "PROJECT_CONTEXT.md", "memvra-context.json"]) := by
  refine ⟨rfl, rfl, rfl, rfl, ?_, ?_⟩
  · intro s h1 h2 h3 h4
    simp [FormatToFilename, h1, h2, h3, h4]
  · intro cfg
    constructor
    · exact filter_map_formats_eq_filterMap cfg.formats
    · intro n hn
      have hn2 := List.mem_filter.mp hn
      obtain ⟨f, _, rfl⟩ := List.mem_map.mp hn2.1
      have hne : FormatToFilename f ≠ "" := by simpa using hn2.2
      by_cases h1 : f = "claude"
      · simp [FormatToFilename, h1]
      · by_cases h2 : f = "cursor"
        · simp [FormatToFilename, h1, h2]
        · by_cases h3 : f = "markdown"
          · simp [FormatToFilename, h1, h2, h3]
          · by_cases h4 : f = "json"
            · simp [FormatToFilename, h1, h2, h3, h4]
            · exact absurd (by simp [FormatToFilename, h1, h2, h3, h4]) hne

/-- Evaluation of C9 on a concrete configuration holding a known, an
unknown and another known format. -/
theorem formatToFilename_spec_witness :
    FormatToFilename "yaml" = "" ∧
    autoExportFilenames { enabled := true, formats := ["claude", "yaml", "json"] } =
      ["claude", "yaml", "json"].filterMap (fun f =>
        if FormatToFilename f = "" then none else some (FormatToFilename f)) ∧
    ("CLAUDE.md" : String) ∈
      ["CLAUDE.md", ".cursorrules", "PROJECT_CONTEXT.md", "memvra-context.json"] :=
  ⟨formatToFilename_spec.2.2.2.2.1 "yaml" (by decide) (by decide) (by decide) (by decide),
   (formatToFilename_spec.2.2.2.2.2 { enabled := true, formats := ["claude", "yaml", "json"] }).1,
   (formatToFilename_spec.2.2.2.2.2 { enabled := true, formats := ["claude", "yaml", "json"] }).2
     "CLAUDE.md" (by decide)⟩

/-- C10: installMCPConfig leaves every server entry other than memvra as
it was (a missing or unparsable prior file acting as an empty table),
sets the memvra entry to command memvra with args mcp, and is
idempotent. -/
theorem installMCPConfig_spec (prior : Option McpServers) :
    (∀ name : String, name ≠ "memvra" →
      installMCPConfig prior name =
        (match prior with | some servers => servers name | none => none)) ∧
    installMCPConfig prior "memvra" = some { command := "memvra", args := ["mcp"] } ∧
    installMCPConfig (some (installMCPConfig prior)) = installMCPConfig prior := by
  refine ⟨?_, ?_, ?_⟩
  · intro name h
    simp [installMCPConfig, h]
  · simp [installMCPConfig]
  · funext name
    by_cases h : name = "memvra" <;> simp [installMCPConfig, h]

/-- Evaluation of C10 starting from an empty prior configuration. -/
theorem installMCPConfig_spec_witness :
    installMCPConfig none "other-tool" = none ∧
    installMCPConfig none "memvra" = some { command := "memvra", args := ["mcp"] } ∧
    installMCPConfig (some (installMCPConfig none)) = installMCPConfig none :=
  ⟨(installMCPConfig_spec none).1 "other-tool" (by decide),
   (installMCPConfig_spec none).2.1,
   (installMCPConfig_spec none).2.2⟩

/-- C1: whenever no embedding capability is configured or the embedding
call for the query fails, Retrieve returns all persisted memories and
zero chunks and never an error, for every query and options value. -/
theorem retrieve_degrades_gracefully (sim : List ℚ → List ℚ → ℚ)
    (rankChunks : List Chunk → List Chunk) (rankMemories : List Memory → List Memory)
    (embedder : Option (String → Option (List ℚ))) (st : OrchState) (query : String)
    (opts : RetrieveOptions)
    (h : embedder = none ∨ ∃ embed, embedder = some embed ∧ embed query = none) :
    retrieve sim rankChunks rankMemories embedder st query opts =
      .ok { chunks := [], memories := st.memories } := by
  rcases h with rfl | ⟨embed, rfl, hq⟩
  · rfl
  · simp [retrieve, hq]

/-- Evaluation of C1 with a failing embedder over a one-memory store. -/
theorem retrieve_degrades_gracefully_witness :
    retrieve (fun _ _ => 0) id id (some (fun _ => none))
      { memories := [{ id := "m1", content := "a note", memoryType := "note",
                       importance := 1/2, source := "user" }],
        chunks := [], memoryVectors := [], chunkVectors := [] }
      "query" { topKChunks := 10, topKMemories := 5, similarityThreshold := 0 } =
      .ok { chunks := [],
            memories := [{ id := "m1", content := "a note", memoryType := "note",
                           importance := 1/2, source := "user" }] } :=
  retrieve_degrades_gracefully _ _ _ _ _ _ _ (Or.inr ⟨_, rfl, rfl⟩)

/-- C4: Remember with a non-empty type outside the five enumerated kinds
fails with InvalidType and leaves the whole state, in particular the
metadata store and the memory vector index, unchanged. -/
theorem remember_invalidType (embedder : Option (String → Option (List ℚ)))
    (st : OrchState) (content ty src : String)
    (h1 : ty ≠ "") (h2 : ty ∉ validMemoryTypes) :
    remember embedder st content ty src = (.error (.invalidType ty), st) := by
  unfold remember
  rw [if_pos ⟨h1, h2⟩]

/-- Evaluation of C4 at the type string invalid over a one-memory
state. -/
theorem remember_invalidType_witness :
    remember none
      { memories := [{ id := "m1", content := "use JWT", memoryType := "decision",
                       importance := 4/5, source := "user" }],
        chunks := [], memoryVectors := [("m1", [1])], chunkVectors := [] }
      "some fact" "invalid" "user" =
      (.error (.invalidType "invalid"),
       { memories := [{ id := "m1", content := "use JWT", memoryType := "decision",
                        importance := 4/5, source := "user" }],
         chunks := [], memoryVectors := [("m1", [1])], chunkVectors := [] }) :=
  remember_invalidType none _ "some fact" "invalid" "user" (by decide) (by decide)

/-- C5: every successful Remember call creates a Memory whose importance
is exactly the fixed type table's value for its type, the table being
decision=0.8, constraint=0.8, convention=0.7, todo=0.6, note=0.5. -/
theorem remember_importance_table (embedder : Option (String → Option (List ℚ)))
    (st : OrchState) (content ty src : String) (mem : Memory) (st2 : OrchState)
    (h : remember embedder st content ty src = (.ok mem, st2)) :
    mem.importance = importanceForType mem.memoryType ∧
    importanceForType "decision" = 4/5 ∧ importanceForType "constraint" = 4/5 ∧
    importanceForType "convention" = 7/10 ∧ importanceForType "todo" = 3/5 ∧
    importanceForType "note" = 1/2 := by
  refine ⟨?_, rfl, rfl, rfl, rfl, rfl⟩
  have hmem : mem = rememberedMemory st content ty src := by
    unfold remember at h
    by_cases hc : ty ≠ "" ∧ ty ∉ validMemoryTypes
    · rw [if_pos hc] at h
      simp at h
    · rw [if_neg hc] at h
      rcases embedder with _ | embed
      · simp at h
        exact h.1.symm
      · simp only at h
        rcases hec : embed content with _ | v <;> rw [hec] at h <;> simp at h <;>
          exact h.1.symm
  subst hmem
  unfold rememberedMemory
  by_cases he : ty = "" <;> simp [he]

/-- Evaluation of C5 on a concrete successful Remember of a decision
starting from the empty state. -/
theorem remember_importance_table_witness :
    (rememberedMemory emptyOrchState "use PostgreSQL" "decision" "user").importance =
      importanceForType
        (rememberedMemory emptyOrchState "use PostgreSQL" "decision" "user").memoryType ∧
    importanceForType "decision" = 4/5 :=
  ⟨(remember_importance_table none emptyOrchState "use PostgreSQL" "decision" "user"
      _ _ rfl).1,
   (remember_importance_table none emptyOrchState "use PostgreSQL" "decision" "user"
      _ _ rfl).2.1⟩

/-- A filter whose predicate keeps every element the search predicate
accepts does not change the result of find?. -/
theorem find?_filter_of_imp (l : List α) (q k : α → Bool)
    (h : ∀ x ∈ l, q x = true → k x = true) : (l.filter k).find? q = l.find? q := by
  induction l with
  | nil => rfl
  | cons x xs ih =>
    have ih2 := ih (fun y hy => h y (List.mem_cons_of_mem x hy))
    by_cases hq : q x = true
    · have hk := h x (List.mem_cons_self x xs) hq
      simp [List.filter_cons, hk, hq]
    · have hq2 : q x = false := by simpa using hq
      by_cases hk : k x = true
      · simp [List.filter_cons, hk, hq2, ih2]
      · have hk2 : k x = false := by simpa using hk
        simp [List.filter_cons, hk2, hq2, ih2]

/-- C8: for a recognized type, ForgetByType succeeds and deletes exactly
the memories of that type together with each one's vector (their vectors
are no longer found), while every memory of another type stays and, when
memory ids are unique, keeps its vector; chunks and chunk vectors are
untouched.  For an unrecognized type it fails with InvalidType and the
state is unchanged. -/
theorem forgetByType_spec (st : OrchState) (ty : String) :
    (ty ∈ validMemoryTypes →
      (forgetByType st ty).1 = .ok () ∧
      (forgetByType st ty).2.memories = st.memories.filter (fun m => m.memoryType ≠ ty) ∧
      (∀ m ∈ st.memories, m.memoryType = ty →
        m ∉ (forgetByType st ty).2.memories ∧
        lookupVec (forgetByType st ty).2.memoryVectors m.id = none) ∧
      (∀ m ∈ st.memories, m.memoryType ≠ ty →
        m ∈ (forgetByType st ty).2.memories ∧
        ((st.memories.map Memory.id).Nodup →
          lookupVec (forgetByType st ty).2.memoryVectors m.id =
            lookupVec st.memoryVectors m.id)) ∧
      (forgetByType st ty).2.chunkVectors = st.chunkVectors ∧
      (forgetByType st ty).2.chunks = st.chunks) ∧
    (ty ∉ validMemoryTypes → forgetByType st ty = (.error (.invalidType ty), st)) := by
  constructor
  · intro hty
    have hnot : ¬ty ∉ validMemoryTypes := not_not_intro hty
    unfold forgetByType
    rw [if_neg hnot]
    refine ⟨rfl, rfl, ?_, ?_, rfl, rfl⟩
    · intro m hm hmt
      constructor
      · intro hmem
        have := (List.mem_filter.mp hmem).2
        simp [hmt] at this
      · show ((st.memoryVectors.filter _).find? _).map Prod.snd = none
        rw [List.find?_eq_none.mpr, Option.map_none']
        intro p hp
        have hall := (List.mem_filter.mp hp).2
        have hmd : m ∈ st.memories.filter (fun m2 => m2.memoryType == ty) :=
          List.mem_filter.mpr ⟨hm, by simp [hmt]⟩
        have hne := List.all_eq_true.mp hall m hmd
        simp only [decide_eq_true_eq] at hne
        simp only [beq_iff_eq]
        exact fun hEq => hne hEq.symm
    · intro m hm hmt
      constructor
      · exact List.mem_filter.mpr ⟨hm, by simp [hmt]⟩
      · intro hnodup
        show ((st.memoryVectors.filter _).find? _).map Prod.snd = _
        rw [find?_filter_of_imp]
        · rfl
        · intro p _ hq
          rw [List.all_eq_true]
          intro m2 hm2
          have hm2m := List.mem_filter.mp hm2
          have hm2ty : m2.memoryType = ty := by simpa using hm2m.2
          simp only [decide_eq_true_eq]
          intro hid
          have hpq : p.1 = m.id := by simpa using hq
          have hmm : m2 = m :=
            List.inj_on_of_nodup_map hnodup hm2m.1 hm (by rw [hid, hpq])
          rw [hmm] at hm2ty
          exact hmt hm2ty
  · intro hty
    unfold forgetByType
    rw [if_pos hty]

/-- Evaluation of C8 over a three-memory state: forgetting notes keeps
the decision and its vector, removes both notes and their vectors, and a
bogus type fails leaving the state alone. -/
theorem forgetByType_spec_witness :
    (forgetByType forgetW "note").1 = .ok () ∧
    (forgetByType forgetW "note").2.memories =
      forgetW.memories.filter (fun m => m.memoryType ≠ "note") ∧
    wmDec ∈ (forgetByType forgetW "note").2.memories ∧
    lookupVec (forgetByType forgetW "note").2.memoryVectors wmDec.id =
      lookupVec forgetW.memoryVectors wmDec.id ∧
    wmNote1 ∉ (forgetByType forgetW "note").2.memories ∧
    lookupVec (forgetByType forgetW "note").2.memoryVectors wmNote1.id = none ∧
    forgetByType forgetW "bogus" = (.error (.invalidType "bogus"), forgetW) :=
  ⟨((forgetByType_spec forgetW "note").1 (by decide)).1,
   ((forgetByType_spec forgetW "note").1 (by decide)).2.1,
   (((forgetByType_spec forgetW "note").1 (by decide)).2.2.2.1 wmDec
      (by simp [forgetW]) (by decide)).1,
   (((forgetByType_spec forgetW "note").1 (by decide)).2.2.2.1 wmDec
      (by simp [forgetW]) (by decide)).2 (by decide),
   (((forgetByType_spec forgetW "note").1 (by decide)).2.2.1 wmNote1
      (by simp [forgetW]) (by decide)).1,
   (((forgetByType_spec forgetW "note").1 (by decide)).2.2.1 wmNote1
      (by simp [forgetW]) (by decide)).2,
   (forgetByType_spec forgetW "bogus").2 (by decide)⟩

/-- C6: for every store state and options value, Build's system prompt
carries the rendering of every convention-type and constraint-type
memory, and its context body carries the rendering of every
decision-type memory, regardless of maxTokens. -/
theorem build_always_includes (fm : Memory → String) (fs : Session → String)
    (fc : Chunk → String) (tok : String → Nat) (readFile : String → Option String)
    (store : MetaStore) (retrieved : RetrievalResult) (opts : BuildOptions) :
    (∀ m ∈ store.memories, m.memoryType = "convention" ∨ m.memoryType = "constraint" →
      fm m ∈ (build fm fs fc tok readFile store retrieved opts).systemPromptParts) ∧
    (∀ m ∈ store.memories, m.memoryType = "decision" →
      fm m ∈ (build fm fs fc tok readFile store retrieved opts).contextParts) := by
  constructor
  · intro m hm ht
    show fm m ∈ systemPromptOf fm store
    unfold systemPromptOf
    rcases ht with ht | ht
    · exact List.mem_append_left _ (List.mem_append_right _
        (List.mem_map_of_mem fm (List.mem_filter.mpr ⟨hm, by simp [ht]⟩)))
    · exact List.mem_append_right _
        (List.mem_map_of_mem fm (List.mem_filter.mpr ⟨hm, by simp [ht]⟩))
  · intro m hm ht
    have hd : fm m ∈ (store.memories.filter (fun m2 => m2.memoryType == "decision")).map fm :=
      List.mem_map_of_mem fm (List.mem_filter.mpr ⟨hm, by simp [ht]⟩)
    exact List.mem_append_left _ (List.mem_append_left _ (List.mem_append_left _
      (List.mem_append_left _ hd)))

/-- Evaluation of C6: with content as the formatter, the convention and
constraint land in the system prompt and the decision in the context
body. -/
theorem build_always_includes_witness :
    "use camelCase" ∈ (build (fun m => m.content) (fun s => s.question)
      (fun c => c.content) String.length (fun _ => none) buildStoreW emptyRetrievalW
      buildOptsW).systemPromptParts ∧
    "never expose API keys" ∈ (build (fun m => m.content) (fun s => s.question)
      (fun c => c.content) String.length (fun _ => none) buildStoreW emptyRetrievalW
      buildOptsW).systemPromptParts ∧
    "decided to use PostgreSQL" ∈ (build (fun m => m.content) (fun s => s.question)
      (fun c => c.content) String.length (fun _ => none) buildStoreW emptyRetrievalW
      buildOptsW).contextParts :=
  ⟨(build_always_includes (fun m => m.content) (fun s => s.question) (fun c => c.content)
      String.length (fun _ => none) buildStoreW emptyRetrievalW buildOptsW).1 cconvW
      (by simp [buildStoreW]) (Or.inl rfl),
   (build_always_includes (fun m => m.content) (fun s => s.question) (fun c => c.content)
      String.length (fun _ => none) buildStoreW emptyRetrievalW buildOptsW).1 cconstrW
      (by simp [buildStoreW]) (Or.inr rfl),
   (build_always_includes (fun m => m.content) (fun s => s.question) (fun c => c.content)
      String.length (fun _ => none) buildStoreW emptyRetrievalW buildOptsW).2 cdecW
      (by simp [buildStoreW]) rfl⟩

/-- The budgeted pass picks a prefix of its candidate list. -/
theorem addBudgeted_take (maxT : Int) (cost : α → Nat) (items : List α) (total : Nat) :
    ∃ k, (addBudgeted maxT cost items total).1 = items.take k := by
  induction items generalizing total with
  | nil => exact ⟨0, rfl⟩
  | cons x rest ih =>
    by_cases hf : fitsBudget maxT total (cost x) = true
    · obtain ⟨k, hk⟩ := ih (total + cost x)
      exact ⟨k + 1, by simp [addBudgeted, hf, hk]⟩
    · exact ⟨0, by simp [addBudgeted, hf]⟩

/-- The budgeted pass accumulates exactly the cost of what it picked. -/
theorem addBudgeted_total (maxT : Int) (cost : α → Nat) (items : List α) (total : Nat) :
    (addBudgeted maxT cost items total).2 =
      total + ((addBudgeted maxT cost items total).1.map cost).sum := by
  induction items generalizing total with
  | nil => simp [addBudgeted]
  | cons x rest ih =>
    by_cases hf : fitsBudget maxT total (cost x) = true
    · simp [addBudgeted, hf, ih (total + cost x)]
      omega
    · simp [addBudgeted, hf]

/-- With no positive budget the pass picks every candidate. -/
theorem addBudgeted_unbounded (maxT : Int) (hmax : maxT ≤ 0) (cost : α → Nat)
    (items : List α) (total : Nat) :
    (addBudgeted maxT cost items total).1 = items := by
  induction items generalizing total with
  | nil => rfl
  | cons x rest ih =>
    have hf : fitsBudget maxT total (cost x) = true := by
      simp [fitsBudget]
      exact Or.inl hmax
    simp [addBudgeted, hf, ih (total + cost x)]

/-- With a positive budget every prefix of the picked list keeps the
running total within it. -/
theorem addBudgeted_bound (maxT : Int) (hmax : 0 < maxT) (cost : α → Nat)
    (items : List α) (total : Nat) :
    withinBudget maxT cost (addBudgeted maxT cost items total).1 total := by
  induction items generalizing total with
  | nil =>
    intro i hi
    simp [addBudgeted] at hi
  | cons x rest ih =>
    intro i hi
    by_cases hf : fitsBudget maxT total (cost x) = true
    · have hfits : (total : Int) + cost x ≤ maxT := by
        unfold fitsBudget at hf
        rcases of_decide_eq_true hf with h | h
        · omega
        · exact h
      rcases i with _ | j
      · simp only [addBudgeted, hf, if_true, List.take_succ_cons, List.take_zero,
          List.map_cons, List.map_nil, List.sum_cons, List.sum_nil, Nat.add_zero]
        exact_mod_cast hfits
      · have hlen : j < (addBudgeted maxT cost rest (total + cost x)).1.length := by
          simp only [addBudgeted, hf, if_true, List.length_cons] at hi
          omega
        have hb := ih (total + cost x) j hlen
        simp only [addBudgeted, hf, if_true, List.take_succ_cons, List.map_cons,
          List.sum_cons]
        push_cast at hb ⊢
        omega
    · simp [addBudgeted, hf] at hi

/-- C7: in every Build call, the sessions, chunks and not-yet-surfaced
retrieved memories of steps 2b-2c are each picked as a prefix of their
candidate list; a non-positive maxTokens imposes no bound (every
candidate of each category is picked); a positive maxTokens bounds every
category's running total, each category starting from the total its
predecessors accumulated — so a category that hits the budget drops only
its own tail while the later categories are still attempted. -/
theorem build_token_budget (fm : Memory → String) (fs : Session → String)
    (fc : Chunk → String) (tok : String → Nat) (readFile : String → Option String)
    (store : MetaStore) (retrieved : RetrievalResult) (opts : BuildOptions) :
    (∃ k, (build fm fs fc tok readFile store retrieved opts).sessionsIncluded =
      (if opts.topKSessions = 0 then []
        else store.sessions.reverse.take opts.topKSessions).take k) ∧
    (∃ k, (build fm fs fc tok readFile store retrieved opts).chunksIncluded =
      retrieved.chunks.take k) ∧
    (∃ k, (build fm fs fc tok readFile store retrieved opts).memoriesIncluded =
      (retrieved.memories.filter (fun m => !alreadySurfaced m)).take k) ∧
    (opts.maxTokens ≤ 0 →
      (build fm fs fc tok readFile store retrieved opts).sessionsIncluded =
        (if opts.topKSessions = 0 then []
          else store.sessions.reverse.take opts.topKSessions) ∧
      (build fm fs fc tok readFile store retrieved opts).chunksIncluded =
        retrieved.chunks ∧
      (build fm fs fc tok readFile store retrieved opts).memoriesIncluded =
        retrieved.memories.filter (fun m => !alreadySurfaced m)) ∧
    (0 < opts.maxTokens →
      withinBudget opts.maxTokens (fun s => tok (fs s))
        (build fm fs fc tok readFile store retrieved opts).sessionsIncluded
        (((store.memories.filter (fun m => m.memoryType == "decision")).map fm).map
          tok).sum ∧
      withinBudget opts.maxTokens (fun c => tok (fc c))
        (build fm fs fc tok readFile store retrieved opts).chunksIncluded
        ((((store.memories.filter (fun m => m.memoryType == "decision")).map fm).map
          tok).sum +
         ((build fm fs fc tok readFile store retrieved opts).sessionsIncluded.map
          (fun s => tok (fs s))).sum) ∧
      withinBudget opts.maxTokens (fun m => tok (fm m))
        (build fm fs fc tok readFile store retrieved opts).memoriesIncluded
        ((((store.memories.filter (fun m => m.memoryType == "decision")).map fm).map
          tok).sum +
         ((build fm fs fc tok readFile store retrieved opts).sessionsIncluded.map
          (fun s => tok (fs s))).sum +
         ((build fm fs fc tok readFile store retrieved opts).chunksIncluded.map
          (fun c => tok (fc c))).sum)) := by
  refine ⟨addBudgeted_take _ _ _ _, addBudgeted_take _ _ _ _, addBudgeted_take _ _ _ _,
    ?_, ?_⟩
  · intro hmax
    exact ⟨addBudgeted_unbounded _ hmax _ _ _, addBudgeted_unbounded _ hmax _ _ _,
      addBudgeted_unbounded _ hmax _ _ _⟩
  · intro hmax
    refine ⟨addBudgeted_bound _ hmax _ _ _, ?_, ?_⟩
    · show withinBudget opts.maxTokens (fun c => tok (fc c))
        (addBudgeted opts.maxTokens (fun c => tok (fc c)) retrieved.chunks
          (addBudgeted opts.maxTokens (fun s => tok (fs s))
            (if opts.topKSessions = 0 then []
              else store.sessions.reverse.take opts.topKSessions)
            (((store.memories.filter (fun m => m.memoryType == "decision")).map
              fm).map tok).sum).2).1
        ((((store.memories.filter (fun m => m.memoryType == "decision")).map fm).map
          tok).sum +
         ((addBudgeted opts.maxTokens (fun s => tok (fs s))
            (if opts.topKSessions = 0 then []
              else store.sessions.reverse.take opts.topKSessions)
            (((store.memories.filter (fun m => m.memoryType == "decision")).map
              fm).map tok).sum).1.map (fun s => tok (fs s))).sum)
      rw [← addBudgeted_total]
      exact addBudgeted_bound _ hmax _ _ _
    · show withinBudget opts.maxTokens (fun m => tok (fm m))
        (addBudgeted opts.maxTokens (fun m => tok (fm m))
          (retrieved.memories.filter (fun m => !alreadySurfaced m))
          (addBudgeted opts.maxTokens (fun c => tok (fc c)) retrieved.chunks
            (addBudgeted opts.maxTokens (fun s => tok (fs s))
              (if opts.topKSessions = 0 then []
                else store.sessions.reverse.take opts.topKSessions)
              (((store.memories.filter (fun m => m.memoryType == "decision")).map
                fm).map tok).sum).2).2).1
        ((((store.memories.filter (fun m => m.memoryType == "decision")).map fm).map
          tok).sum +
         ((addBudgeted opts.maxTokens (fun s => tok (fs s))
            (if opts.topKSessions = 0 then []
              else store.sessions.reverse.take opts.topKSessions)
            (((store.memories.filter (fun m => m.memoryType == "decision")).map
              fm).map tok).sum).1.map (fun s => tok (fs s))).sum +
         ((addBudgeted opts.maxTokens (fun c => tok (fc c)) retrieved.chunks
            (addBudgeted opts.maxTokens (fun s => tok (fs s))
              (if opts.topKSessions = 0 then []
                else store.sessions.reverse.take opts.topKSessions)
              (((store.memories.filter (fun m => m.memoryType == "decision")).map
                fm).map tok).sum).2).1.map (fun c => tok (fc c))).sum)
      rw [← addBudgeted_total, ← addBudgeted_total]
      exact addBudgeted_bound _ hmax _ _ _

/-- Evaluation of C7 on a 9-token budget: the chunk category keeps a
prefix within budget and overflows at its third candidate, while the
memory category after it is still attempted and lands its note. -/
theorem build_token_budget_witness :
    (0 : Int) < budgetOptsW.maxTokens ∧
    (∃ k, budgetBuildW.chunksIncluded = budgetRetrievedW.chunks.take k) ∧
    withinBudget budgetOptsW.maxTokens (fun c => String.length (c.content))
      budgetBuildW.chunksIncluded
      ((((budgetStoreW.memories.filter (fun m => m.memoryType == "decision")).map
        (fun m => m.content)).map String.length).sum +
       (budgetBuildW.sessionsIncluded.map (fun s => String.length (s.question))).sum) ∧
    budgetBuildW.chunksUsed = 2 ∧
    budgetBuildW.memoriesUsed = 1 :=
  ⟨by decide,
   (build_token_budget (fun m => m.content) (fun s => s.question) (fun c => c.content)
      String.length (fun _ => none) budgetStoreW budgetRetrievedW budgetOptsW).2.1,
   ((build_token_budget (fun m => m.content) (fun s => s.question) (fun c => c.content)
      String.length (fun _ => none) budgetStoreW budgetRetrievedW
      budgetOptsW).2.2.2.2 (by decide)).2.1,
   rfl, rfl⟩

/-- Filtering a prefix yields a prefix of the filtered list. -/
theorem filter_take_eq_take_filter (p : α → Bool) :
    ∀ (l : List α) (k : Nat), ∃ n, (l.take k).filter p = (l.filter p).take n := by
  intro l
  induction l with
  | nil => intro k; exact ⟨0, by simp⟩
  | cons x xs ih =>
    intro k
    cases k with
    | zero => exact ⟨0, by simp⟩
    | succ k =>
      obtain ⟨n, hn⟩ := ih k
      by_cases hp : p x = true
      · exact ⟨n + 1, by simp [List.take_succ_cons, List.filter_cons, hp, hn]⟩
      · have hp2 : p x = false := by simpa using hp
        exact ⟨n, by simp [List.take_succ_cons, List.filter_cons, hp2, hn]⟩

/-- Insertion sort by distance is stable: restricted to any one distance,
the sorted list is exactly the input in its original order. -/
theorem insertionSort_filter_dist (cand : List VectorMatch) (d : ℚ) :
    (cand.insertionSort matchLE).filter (fun e => e.distance == d) =
      cand.filter (fun e => e.distance == d) := by
  set p : VectorMatch → Bool := fun e => e.distance == d with hp
  have hsub : List.Sublist (cand.filter p) cand := List.filter_sublist cand
  have hpair : (cand.filter p).Pairwise matchLE := by
    apply List.pairwise_of_forall_mem_list
    intro a ha b hb
    have hda : a.distance = d := by simpa [hp] using (List.mem_filter.mp ha).2
    have hdb : b.distance = d := by simpa [hp] using (List.mem_filter.mp hb).2
    unfold matchLE
    rw [hda, hdb]
  have hcs : List.Sublist (cand.filter p) (cand.insertionSort matchLE) :=
    List.sublist_insertionSort hpair hsub
  have hall : ∀ e ∈ cand.filter p, p e = true := fun e he => (List.mem_filter.mp he).2
  have hcs2 : List.Sublist (cand.filter p) ((cand.insertionSort matchLE).filter p) := by
    have h2 := hcs.filter p
    rwa [List.filter_eq_self.mpr hall] at h2
  have hperm : List.Perm ((cand.insertionSort matchLE).filter p) (cand.filter p) :=
    (List.perm_insertionSort matchLE cand).filter p
  exact (hcs2.eq_of_length hperm.length_eq.symm).symm

/-- C2: with a non-empty query, every Search result passed the
similarity threshold (similarity = 1 - distance) and comes from the
matching-dimension candidates; results are sorted by ascending distance;
at most topK are returned; and within one distance value the results are
a prefix of the candidates in insertion order — ties are broken by
insertion order, later entries being the ones truncated. -/
theorem search_spec (sim : List ℚ → List ℚ → ℚ) (stored : List (String × List ℚ))
    (query : List ℚ) (topK : Nat) (threshold : ℚ) (hq : query ≠ []) :
    (∀ e ∈ search sim stored query topK threshold,
      threshold ≤ 1 - e.distance ∧ e ∈ searchCandidates sim stored query threshold) ∧
    (search sim stored query topK threshold).Sorted matchLE ∧
    (search sim stored query topK threshold).length ≤ topK ∧
    (∀ d : ℚ, ∃ n,
      (search sim stored query topK threshold).filter (fun e => e.distance == d) =
        ((searchCandidates sim stored query threshold).filter
          (fun e => e.distance == d)).take n) := by
  have hs : search sim stored query topK threshold =
      ((searchCandidates sim stored query threshold).insertionSort matchLE).take topK := by
    unfold search
    rw [if_neg hq]
  refine ⟨?_, ?_, ?_, ?_⟩
  · intro e he
    rw [hs] at he
    have he2 : e ∈ (searchCandidates sim stored query threshold).insertionSort matchLE :=
      (List.take_sublist _ _).subset he
    have he3 : e ∈ searchCandidates sim stored query threshold :=
      (List.mem_insertionSort matchLE).1 he2
    refine ⟨?_, he3⟩
    unfold searchCandidates at he3
    obtain ⟨q, hqmem, hqe⟩ := List.mem_filterMap.mp he3
    by_cases hth : threshold ≤ sim query q.2
    · rw [if_pos hth] at hqe
      cases hqe
      simpa using hth
    · rw [if_neg hth] at hqe
      cases hqe
  · rw [hs]
    exact List.Pairwise.sublist (List.take_sublist _ _)
      (List.sorted_insertionSort matchLE _)
  · rw [hs]
    exact List.length_take_le _ _
  · intro d
    obtain ⟨n, hn⟩ := filter_take_eq_take_filter (fun e => e.distance == d)
      ((searchCandidates sim stored query threshold).insertionSort matchLE) topK
    refine ⟨n, ?_⟩
    rw [hs, hn, insertionSort_filter_dist]

/-- Evaluation of C2 on a concrete two-vector store with topK 1. -/
theorem search_spec_witness :
    (search (fun _ v => v.headD 0) [("a", [1]), ("b", [2])] [5] 1 0).Sorted matchLE ∧
    (search (fun _ v => v.headD 0) [("a", [1]), ("b", [2])] [5] 1 0).length ≤ 1 ∧
    (∃ n, (search (fun _ v => v.headD 0) [("a", [1]), ("b", [2])] [5] 1 0).filter
        (fun e => e.distance == 0) =
      ((searchCandidates (fun _ v => v.headD 0) [("a", [1]), ("b", [2])] [5] 0).filter
        (fun e => e.distance == 0)).take n) :=
  ⟨(search_spec (fun _ v => v.headD 0) [("a", [1]), ("b", [2])] [5] 1 0 (by decide)).2.1,
   (search_spec (fun _ v => v.headD 0) [("a", [1]), ("b", [2])] [5] 1 0
      (by decide)).2.2.1,
   (search_spec (fun _ v => v.headD 0) [("a", [1]), ("b", [2])] [5] 1 0
      (by decide)).2.2.2 0⟩

end Memvra
